import Mathlib

/-!
Verification of the KEPH task-tracker's report/grouping logic.

Shallow embedding of the three source files:
* `task-item` (src/unnamed/part_000): the per-task checkbox handlers
  `handleCheck` and `handleSubtaskCheck`.
* `task-list` (src/unnamed/part_001): tab filtering (`filteredTasks`),
  per-tab counts (`getCount`), within-group sorting (`sortTasks`),
  date grouping (`groupedTasks`) and group-key ordering
  (`sortedGroupKeys`).
* `daily-summary-dialog` (src/src/components/keph/daily-summary-dialog.tsx):
  the report partition (`completedTasksList` / `incompleteTasksList`),
  the statistics (`completionRate` and friends), the HTML and plain-text
  report generators, and the PDF file name.

Modelling conventions:
* JS `Date` values are modelled as natural-number millisecond timestamps
  (every date the app itself writes comes from `new Date()`, hence is
  non-negative).  Calendar days are modelled by `dayOf` (division by the
  number of milliseconds in a day, i.e. a fixed-offset local calendar);
  `format(d, 'yyyy-MM-dd')` is injective per calendar day and
  `new Date(key).getTime()` is monotone in the day, so the string date
  keys of the source are modelled by their day ordinal (`Option Nat`,
  `none` standing for the `'No Date'` sentinel).
* A TS field that may be `undefined` is `Option _`; an optional array
  field is a plain list, `undefined` and `[]` being indistinguishable in
  every use site (`xs && xs.length > 0` guards every access).
* `Array.prototype.sort` (stable, and used here with comparators that
  induce total preorders) is modelled by `List.insertionSort`, which is
  stable and produces a sorted permutation.
* A JS object used as a string-keyed dictionary (`groupedTasks`) is an
  association list in key-insertion order, which is exactly the
  enumeration order of `Object.keys` for the non-index keys used here.
-/

namespace KEPH

/-- Milliseconds per calendar day. -/
def msPerDay : Nat := 86400000

/-- The calendar day (as an ordinal) of a millisecond timestamp. -/
def dayOf (t : Nat) : Nat := t / msPerDay

/-- `isToday` from date-fns: the timestamp falls on the same calendar day
as `now`. -/
def isToday (now t : Nat) : Bool := dayOf t == dayOf now

/-- `TaskStatus` from `@/types`. -/
inductive TaskStatus where
  | current
  | completed
  | pending
deriving DecidableEq

/-- A subtask: identity, title and a completed flag. -/
structure Subtask where
  id : Nat
  title : String
  completed : Bool
deriving DecidableEq

/-- A `{id, value}` url entry. -/
structure Url where
  id : Nat
  value : String
deriving DecidableEq

/-- `Task` from `@/types`, with `Date`s as millisecond timestamps. -/
structure Task where
  id : Nat
  title : String
  status : TaskStatus
  createdAt : Nat
  completedAt : Option Nat
  dueDate : Option Nat
  notes : Option String
  urls : List Url
  subtasks : List Subtask
deriving DecidableEq

/-! ### task-list (src/unnamed/part_001): filtering, counting, sorting,
grouping -/

/-- `filteredTasks` of `TaskList`: tab membership for the active tab. -/
def filteredTasks (now : Nat) (activeTab : TaskStatus) (tasks : List Task) :
    List Task :=
  tasks.filter fun task =>
    match activeTab with
    | .current =>
        task.status == .current ||
          (task.status == .completed &&
            (match task.completedAt with
             | some c => isToday now c
             | none => false))
    | .completed =>
        task.status == .completed &&
          (match task.completedAt with
           | some c => !isToday now c
           | none => false)
    | .pending => task.status == .pending

/-- `getCount` of `TaskList`: per-tab display counts over the full
collection (the final branch of the source is `t.status === status`,
reached only for `pending`). -/
def getCount (now : Nat) (status : TaskStatus) (tasks : List Task) : Nat :=
  match status with
  | .current =>
      (tasks.filter fun t =>
        t.status == .current ||
          (t.status == .completed &&
            (match t.completedAt with
             | some c => isToday now c
             | none => false))).length
  | .completed =>
      (tasks.filter fun t =>
        t.status == .completed &&
          (match t.completedAt with
           | some c => !isToday now c
           | none => false)).length
  | .pending => (tasks.filter fun t => t.status == .pending).length

/-- The `sortTasks` comparator for the `completed` tab, as a relation:
`a` may come before `b` iff `(b.completedAt?.getTime() || 0) -
(a.completedAt?.getTime() || 0) <= 0`, i.e. completedAt descending with a
missing timestamp read as `0`. -/
def completedOrder (a b : Task) : Prop :=
  b.completedAt.getD 0 ≤ a.completedAt.getD 0

instance : DecidableRel completedOrder := fun a b =>
  inferInstanceAs (Decidable (b.completedAt.getD 0 ≤ a.completedAt.getD 0))

/-- The `sortTasks` comparator for the other tabs, as a relation: dated
tasks by due date ascending, dated before undated, undated by createdAt
descending. -/
def dueOrder (a b : Task) : Prop :=
  match a.dueDate, b.dueDate with
  | some x, some y => x ≤ y
  | some _, none => True
  | none, some _ => False
  | none, none => b.createdAt ≤ a.createdAt

instance : DecidableRel dueOrder := fun a b => by
  unfold dueOrder
  rcases a.dueDate with _ | x <;> rcases b.dueDate with _ | y
  · exact inferInstanceAs (Decidable (_ ≤ _))
  · exact inferInstanceAs (Decidable False)
  · exact inferInstanceAs (Decidable True)
  · exact inferInstanceAs (Decidable (_ ≤ _))

/-- `sortTasks` of `TaskList`: a stable sort by the tab's comparator. -/
def sortTasks (activeTab : TaskStatus) (tasksToSort : List Task) :
    List Task :=
  match activeTab with
  | .completed => List.insertionSort completedOrder tasksToSort
  | _ => List.insertionSort dueOrder tasksToSort

/-- The grouping key of a task: the calendar day of `completedAt` in the
`completed` tab, of `dueDate` otherwise; `none` is the `'No Date'`
sentinel. -/
def groupKey (activeTab : TaskStatus) (t : Task) : Option Nat :=
  match activeTab with
  | .completed => t.completedAt.map dayOf
  | _ => t.dueDate.map dayOf

/-- One step of the `groupedTasks` reduce: push `t` onto the entry for
key `k`, creating the entry at the end when the key is new (JS object
key-insertion order). -/
def insertGrouped (acc : List (Option Nat × List Task)) (k : Option Nat)
    (t : Task) : List (Option Nat × List Task) :=
  match acc with
  | [] => [(k, [t])]
  | (k', l) :: rest =>
      if k' = k then (k', l ++ [t]) :: rest
      else (k', l) :: insertGrouped rest k t

/-- `groupedTasks` of `renderTaskList`: the date-keyed partition of the
tasks to render, as an insertion-ordered association list. -/
def groupedTasks (activeTab : TaskStatus) (tasksToRender : List Task) :
    List (Option Nat × List Task) :=
  tasksToRender.foldl (fun acc t => insertGrouped acc (groupKey activeTab t) t) []

/-- The `sortedGroupKeys` comparator as a relation: `'No Date'` (`none`)
last, other keys by calendar day descending. -/
def keyOrder (a b : Option Nat) : Prop :=
  match a, b with
  | _, none => True
  | some x, some y => y ≤ x
  | none, some _ => False

instance : DecidableRel keyOrder := fun a b => by
  unfold keyOrder
  rcases a with _ | x <;> rcases b with _ | y
  · exact inferInstanceAs (Decidable True)
  · exact inferInstanceAs (Decidable False)
  · exact inferInstanceAs (Decidable True)
  · exact inferInstanceAs (Decidable (_ ≤ _))

/-- `sortedGroupKeys` of `renderTaskList`. -/
def sortedGroupKeys (keys : List (Option Nat)) : List (Option Nat) :=
  List.insertionSort keyOrder keys

/-! ### daily-summary-dialog: report partition and statistics -/

/-- `completedTasksList` of `DailySummaryDialog`: the "accomplished"
filter — all subtasks completed when there are subtasks, else status
`completed`. -/
def completedTasksList (tasks : List Task) : List Task :=
  tasks.filter fun t =>
    if t.subtasks.length > 0 then t.subtasks.all (fun st => st.completed)
    else t.status == .completed

/-- `incompleteTasksList` of `DailySummaryDialog`: the tasks whose id
does not occur in `completedTasksList`. -/
def incompleteTasksList (tasks : List Task) : List Task :=
  tasks.filter fun t =>
    !((completedTasksList tasks).any fun ct => ct.id == t.id)

/-- `totalSubtasks` of `DailySummaryDialog`. -/
def totalSubtasksCount (tasks : List Task) : Nat :=
  tasks.foldl
    (fun acc task =>
      if task.subtasks.length > 0 then acc + task.subtasks.length else acc)
    0

/-- `completedSubtasks` of `DailySummaryDialog`. -/
def completedSubtasksCount (tasks : List Task) : Nat :=
  tasks.foldl
    (fun acc task =>
      if task.subtasks.length > 0 then
        acc + (task.subtasks.filter (fun st => st.completed)).length
      else acc)
    0

/-- `itemsForCompletion` of `DailySummaryDialog`: the completion-unit
denominator. -/
def itemsForCompletion (tasks : List Task) : Nat :=
  tasks.foldl
    (fun acc task =>
      if task.subtasks.length > 0 then acc + task.subtasks.length
      else acc + 1)
    0

/-- `completedItemsForCompletion` of `DailySummaryDialog`: the
completion-unit numerator. -/
def completedItemsForCompletion (tasks : List Task) : Nat :=
  tasks.foldl
    (fun acc task =>
      if task.subtasks.length > 0 then
        acc + (task.subtasks.filter (fun st => st.completed)).length
      else if task.status == .completed then acc + 1 else acc)
    0

/-- `completionRate` of `DailySummaryDialog`, as an exact rational. -/
def completionRate (tasks : List Task) : ℚ :=
  if itemsForCompletion tasks > 0 then
    ((completedItemsForCompletion tasks : ℚ) / (itemsForCompletion tasks : ℚ))
      * 100
  else 0

/-- JS `Number.prototype.toFixed(0)`: round to the nearest integer and
print it (both report generators call it on the same value, so only that
sharing matters below). -/
def toFixed0 (q : ℚ) : String := toString (round q)

/-! ### daily-summary-dialog: the two report string generators -/

/-- `renderTaskToHtml` of `generateHtmlReport`. -/
def renderTaskToHtml (task : Task) : String :=
  "<h3>" ++ (if task.status == .completed then "✅" else "⬜️") ++ " "
    ++ task.title ++ "</h3>"
  ++ (if task.subtasks.length > 0 then
        "<ul>"
          ++ String.join (task.subtasks.map fun st =>
              "<li>" ++ (if st.completed then "☑️" else "☐") ++ " "
                ++ st.title ++ "</li>")
          ++ "</ul>"
      else "")
  ++ (match task.notes with
      | some s =>
          if s = "" then ""
          else
            "<p><strong>Notes:</strong><br/>" ++ s.replace "\n" "<br/>"
              ++ "</p>"
      | none => "")
  ++ (if task.urls.length > 0 then
        "<p><strong>URLs:</strong></p><ul>"
          ++ String.join (task.urls.map fun url =>
              "<li><a href=\"" ++ url.value ++ "\">" ++ url.value
                ++ "</a></li>")
          ++ "</ul>"
      else "")

/-- `generateHtmlReport` of `DailySummaryDialog` (JS falsiness of an
empty `notes` string is reflected inside `renderTaskToHtml`). -/
def generateHtmlReport (reportTitle : String) (tasks : List Task) :
    String :=
  "<!DOCTYPE html><html><head><meta charset=\"UTF-8\"><title>Powered by KEPH</title></head><body>"
  ++ "<h1>" ++ reportTitle ++ "</h1>"
  ++ "<h2>Daily Statistics</h2>"
  ++ "<ul><li><strong>Overall Progress</strong>: "
    ++ toFixed0 (completionRate tasks) ++ "%</li>"
  ++ "<li><strong>Tasks Completed</strong>: "
    ++ toString (completedTasksList tasks).length ++ " / "
    ++ toString tasks.length ++ "</li>"
  ++ "<li><strong>Subtasks Checked</strong>: "
    ++ toString (completedSubtasksCount tasks) ++ " / "
    ++ toString (totalSubtasksCount tasks) ++ "</li></ul>"
  ++ "<hr>"
  ++ (if (completedTasksList tasks).length > 0 then
        "<h2>Accomplishments</h2>"
          ++ String.intercalate "<hr>"
              ((completedTasksList tasks).map renderTaskToHtml)
      else "")
  ++ (if (incompleteTasksList tasks).length > 0 then
        "<h2>Outstanding Items</h2>"
          ++ String.intercalate "<hr>"
              ((incompleteTasksList tasks).map renderTaskToHtml)
      else "")
  ++ (if tasks.length = 0 then "<p>No tasks recorded for this day.</p>"
      else "")
  ++ "</body></html>"

/-- `renderTaskToText` of `generatePlainTextReport`. -/
def renderTaskToText (task : Task) : String :=
  (if task.status == .completed then "✅" else "🔲") ++ " " ++ task.title
    ++ "\n\n"
  ++ (if task.subtasks.length > 0 then
        String.intercalate "\n"
            (task.subtasks.map fun st =>
              "  - [" ++ (if st.completed then "x" else " ") ++ "] "
                ++ st.title)
          ++ "\n\n"
      else "")
  ++ (match task.notes with
      | some s => if s = "" then "" else "Notes:\n" ++ s ++ "\n\n"
      | none => "")
  ++ (if task.urls.length > 0 then
        "URLs:\n"
          ++ String.intercalate "\n"
              (task.urls.map fun url => "- " ++ url.value)
          ++ "\n\n"
      else "")

/-- `generatePlainTextReport` of `DailySummaryDialog`. -/
def generatePlainTextReport (reportTitle : String) (tasks : List Task) :
    String :=
  reportTitle ++ "\n\n"
  ++ "== Daily Statistics ==\n"
  ++ "- Overall Progress: " ++ toFixed0 (completionRate tasks) ++ "%\n"
  ++ "- Tasks Completed: " ++ toString (completedTasksList tasks).length
    ++ " / " ++ toString tasks.length ++ "\n"
  ++ "- Subtasks Checked: " ++ toString (completedSubtasksCount tasks)
    ++ " / " ++ toString (totalSubtasksCount tasks) ++ "\n\n"
  ++ "-----------------\n\n"
  ++ (if (completedTasksList tasks).length > 0 then
        "== Accomplishments ==\n\n"
          ++ String.intercalate "---\n"
              ((completedTasksList tasks).map renderTaskToText)
      else "")
  ++ (if (incompleteTasksList tasks).length > 0 then
        "\n== Outstanding Items ==\n\n"
          ++ String.intercalate "---\n"
              ((incompleteTasksList tasks).map renderTaskToText)
      else "")
  ++ (if tasks.length = 0 then "No tasks recorded for this day.\n"
      else "")

/-! ### The abstract report both generators factor through -/

/-- The per-task content both report encodings display: completion-glyph
state, title, subtask items (completed flag and title), the notes text
(absent when the field is missing or JS-falsy empty) and the link
list. -/
structure TaskDetail where
  isDone : Bool
  title : String
  subtaskItems : List (Bool × String)
  noteText : Option String
  linkList : List String
deriving DecidableEq

/-- The abstraction of one task to its displayed content. -/
def toDetail (t : Task) : TaskDetail where
  isDone := t.status == .completed
  title := t.title
  subtaskItems := t.subtasks.map fun st => (st.completed, st.title)
  noteText :=
    match t.notes with
    | some s => if s = "" then none else some s
    | none => none
  linkList := t.urls.map fun url => url.value

/-- Everything the renderings of a report agree on: title text,
statistics numbers, and the two task sections in order. -/
structure AbstractReport where
  title : String
  progress : String
  tasksDone : Nat
  tasksTotal : Nat
  subsDone : Nat
  subsTotal : Nat
  accomplished : List TaskDetail
  outstanding : List TaskDetail
  noTasks : Bool
deriving DecidableEq

/-- The one abstract report of a task group. -/
def abstractReport (reportTitle : String) (tasks : List Task) :
    AbstractReport where
  title := reportTitle
  progress := toFixed0 (completionRate tasks)
  tasksDone := (completedTasksList tasks).length
  tasksTotal := tasks.length
  subsDone := completedSubtasksCount tasks
  subsTotal := totalSubtasksCount tasks
  accomplished := (completedTasksList tasks).map toDetail
  outstanding := (incompleteTasksList tasks).map toDetail
  noTasks := tasks.length = 0

/-- HTML surface syntax for one task detail. -/
def detailToHtml (d : TaskDetail) : String :=
  "<h3>" ++ (if d.isDone then "✅" else "⬜️") ++ " " ++ d.title ++ "</h3>"
  ++ (if d.subtaskItems.length > 0 then
        "<ul>"
          ++ String.join (d.subtaskItems.map fun it =>
              "<li>" ++ (if it.1 then "☑️" else "☐") ++ " " ++ it.2
                ++ "</li>")
          ++ "</ul>"
      else "")
  ++ (match d.noteText with
      | some s =>
          "<p><strong>Notes:</strong><br/>" ++ s.replace "\n" "<br/>"
            ++ "</p>"
      | none => "")
  ++ (if d.linkList.length > 0 then
        "<p><strong>URLs:</strong></p><ul>"
          ++ String.join (d.linkList.map fun v =>
              "<li><a href=\"" ++ v ++ "\">" ++ v ++ "</a></li>")
          ++ "</ul>"
      else "")

/-- HTML surface syntax for the whole abstract report. -/
def renderHtmlAbs (r : AbstractReport) : String :=
  "<!DOCTYPE html><html><head><meta charset=\"UTF-8\"><title>Powered by KEPH</title></head><body>"
  ++ "<h1>" ++ r.title ++ "</h1>"
  ++ "<h2>Daily Statistics</h2>"
  ++ "<ul><li><strong>Overall Progress</strong>: " ++ r.progress
    ++ "%</li>"
  ++ "<li><strong>Tasks Completed</strong>: " ++ toString r.tasksDone
    ++ " / " ++ toString r.tasksTotal ++ "</li>"
  ++ "<li><strong>Subtasks Checked</strong>: " ++ toString r.subsDone
    ++ " / " ++ toString r.subsTotal ++ "</li></ul>"
  ++ "<hr>"
  ++ (if r.accomplished.length > 0 then
        "<h2>Accomplishments</h2>"
          ++ String.intercalate "<hr>" (r.accomplished.map detailToHtml)
      else "")
  ++ (if r.outstanding.length > 0 then
        "<h2>Outstanding Items</h2>"
          ++ String.intercalate "<hr>" (r.outstanding.map detailToHtml)
      else "")
  ++ (if r.noTasks then "<p>No tasks recorded for this day.</p>" else "")
  ++ "</body></html>"

/-- Plain-text surface syntax for one task detail. -/
def detailToText (d : TaskDetail) : String :=
  (if d.isDone then "✅" else "🔲") ++ " " ++ d.title ++ "\n\n"
  ++ (if d.subtaskItems.length > 0 then
        String.intercalate "\n"
            (d.subtaskItems.map fun it =>
              "  - [" ++ (if it.1 then "x" else " ") ++ "] " ++ it.2)
          ++ "\n\n"
      else "")
  ++ (match d.noteText with
      | some s => "Notes:\n" ++ s ++ "\n\n"
      | none => "")
  ++ (if d.linkList.length > 0 then
        "URLs:\n"
          ++ String.intercalate "\n" (d.linkList.map fun v => "- " ++ v)
          ++ "\n\n"
      else "")

/-- Plain-text surface syntax for the whole abstract report. -/
def renderTextAbs (r : AbstractReport) : String :=
  r.title ++ "\n\n"
  ++ "== Daily Statistics ==\n"
  ++ "- Overall Progress: " ++ r.progress ++ "%\n"
  ++ "- Tasks Completed: " ++ toString r.tasksDone ++ " / "
    ++ toString r.tasksTotal ++ "\n"
  ++ "- Subtasks Checked: " ++ toString r.subsDone ++ " / "
    ++ toString r.subsTotal ++ "\n\n"
  ++ "-----------------\n\n"
  ++ (if r.accomplished.length > 0 then
        "== Accomplishments ==\n\n"
          ++ String.intercalate "---\n" (r.accomplished.map detailToText)
      else "")
  ++ (if r.outstanding.length > 0 then
        "\n== Outstanding Items ==\n\n"
          ++ String.intercalate "---\n" (r.outstanding.map detailToText)
      else "")
  ++ (if r.noTasks then "No tasks recorded for this day.\n" else "")

/-! ### daily-summary-dialog: the PDF file name -/

/-- The character class of the regex `[\s,]+` in `handleDownloadPdf`
(the `\s` characters that can occur in a formatted date label). -/
def isSepChar (c : Char) : Bool :=
  c == ' ' || c == ',' || c == '\t' || c == '\n' || c == '\r'
    || c == '\x0b' || c == '\x0c'

/-- `String.replace(/[\s,]+/g, '-')`: each maximal run of separator
characters becomes a single hyphen. -/
def replaceRuns : List Char → List Char
  | [] => []
  | c :: cs =>
      if isSepChar c then '-' :: replaceRuns (cs.dropWhile isSepChar)
      else c :: replaceRuns cs
termination_by l => l.length
decreasing_by
  · exact Nat.lt_succ_of_le
      ((List.dropWhile_suffix isSepChar).sublist.length_le)
  · exact Nat.lt_succ_self _

/-- `formattedDate.replace(/[\s,]+/g, '-')`. -/
def sanitizeLabel (s : String) : String := String.mk (replaceRuns s.data)

/-- The file name of `pdf.save` in `handleDownloadPdf`:
`KEPH-Report-${dateKey || formattedDate.replace(/[\s,]+/g, '-')}.pdf`
(JS `||` falls back when `dateKey` is `undefined` or the empty
string). -/
def pdfFileName (dateKey : Option String) (formattedDate : String) :
    String :=
  "KEPH-Report-"
    ++ (match dateKey with
        | some k => if k = "" then sanitizeLabel formattedDate else k
        | none => sanitizeLabel formattedDate)
    ++ ".pdf"

/-! ### task-item (src/unnamed/part_000): checkbox handlers -/

/-- A partial update as passed to `onUpdate`: `none` means the field is
absent from the update object, `some none` in `completedAt` means the
field is present with value `undefined` (the source writes
`completedAt: undefined` to clear it). -/
structure TaskUpdate where
  status : Option TaskStatus := none
  completedAt : Option (Option Nat) := none
  subtasks : Option (List Subtask) := none
deriving DecidableEq

/-- Modelled from the spec: the Task Store's merge of a partial update
into a task (§6 `update(taskId, partialFields)`); the merging code is
not part of the three source files. A present field overwrites, an
absent one is kept. -/
def applyUpdate (task : Task) (u : TaskUpdate) : Task :=
  { task with
    status := u.status.getD task.status
    completedAt :=
      match u.completedAt with
      | some v => v
      | none => task.completedAt
    subtasks := u.subtasks.getD task.subtasks }

/-- `handleCheck` of `TaskItem`: the update produced by toggling the
primary checkbox to `checked` at time `now`. -/
def handleCheck (now : Nat) (task : Task) (checked : Bool) : TaskUpdate :=
  { status := some (if checked then .completed else .current)
    completedAt := some (if checked then some now else none)
    subtasks :=
      if task.subtasks.length > 0 then
        some (task.subtasks.map fun st => { st with completed := checked })
      else none }

/-- `handleSubtaskCheck` of `TaskItem`: the update produced by toggling
the subtask with id `subtaskId` to `checked` at time `now`. -/
def handleSubtaskCheck (now : Nat) (task : Task) (subtaskId : Nat)
    (checked : Bool) : TaskUpdate :=
  (fun updatedSubtasks =>
    if task.subtasks.length > 0 then
      if updatedSubtasks.all (fun st => st.completed) then
        { subtasks := some updatedSubtasks
          status := some .completed
          completedAt := some (some now) }
      else
        { subtasks := some updatedSubtasks
          status := some .current
          completedAt := some none }
    else { subtasks := some updatedSubtasks })
    (task.subtasks.map fun st =>
      if st.id == subtaskId then { st with completed := checked } else st)

/-! ## Theorems -/

/-- Membership in `completedTasksList` is membership in the group plus
the accomplished predicate of the source. -/
theorem mem_completedTasksList {tasks : List Task} {t : Task} :
    t ∈ completedTasksList tasks ↔ t ∈ tasks ∧
      (if t.subtasks.length > 0 then
        t.subtasks.all (fun st => st.completed)
       else t.status == .completed) = true := by
  simp [completedTasksList, List.mem_filter]

/-- With pairwise-distinct ids, the id-based exclusion test of
`incompleteTasksList` coincides with the accomplished predicate. -/
theorem any_id_eq_accomplished {tasks : List Task}
    (h : (tasks.map Task.id).Nodup) {t : Task} (ht : t ∈ tasks) :
    ((completedTasksList tasks).any fun ct => ct.id == t.id) =
      (if t.subtasks.length > 0 then
        t.subtasks.all (fun st => st.completed)
       else t.status == .completed) := by
  by_cases hb :
      (if t.subtasks.length > 0 then
        t.subtasks.all (fun st => st.completed)
       else t.status == .completed) = true
  · rw [hb, List.any_eq_true]
    exact ⟨t, mem_completedTasksList.2 ⟨ht, hb⟩, by simp⟩
  · rw [Bool.not_eq_true] at hb
    rw [hb, List.any_eq_false]
    intro ct hct
    rcases mem_completedTasksList.1 hct with ⟨hct', hacc⟩
    have hne : ct.id ≠ t.id := by
      intro hid
      have hct_eq : ct = t := List.inj_on_of_nodup_map h hct' ht hid
      rw [hct_eq] at hacc
      rw [hacc] at hb
      simp at hb
    simpa using hne

/-- C1: for every task group, `completedTasksList` holds exactly the
tasks that are accomplished (non-empty subtasks all completed, or no
subtasks and status `completed`); with distinct task ids,
`incompleteTasksList` holds exactly the rest, and the two lists
together are a permutation of the group (a partition: no duplicates, no
omissions). -/
theorem c1_report_partition (tasks : List Task)
    (h : (tasks.map Task.id).Nodup) :
    (∀ t, t ∈ completedTasksList tasks ↔
      t ∈ tasks ∧
        ((t.subtasks ≠ [] ∧ ∀ st ∈ t.subtasks, st.completed = true)
          ∨ (t.subtasks = [] ∧ t.status = .completed)))
  ∧ incompleteTasksList tasks = tasks.filter (fun t =>
      !(if t.subtasks.length > 0 then
          t.subtasks.all (fun st => st.completed)
        else t.status == .completed))
  ∧ (completedTasksList tasks ++ incompleteTasksList tasks).Perm tasks := by
  have key : incompleteTasksList tasks = tasks.filter (fun t =>
      !(if t.subtasks.length > 0 then
          t.subtasks.all (fun st => st.completed)
        else t.status == .completed)) := by
    unfold incompleteTasksList
    refine List.filter_congr ?_
    intro t ht
    rw [any_id_eq_accomplished h ht]
  refine ⟨?_, key, ?_⟩
  · intro t
    rw [mem_completedTasksList]
    rcases hsub : t.subtasks with _ | ⟨s, ss⟩ <;> simp [hsub]
  · rw [key]
    exact List.filter_append_perm _ tasks

/-- Witness for C1 at a concrete two-task group. -/
theorem c1_witness :
    (([{ id := 1, title := "a", status := .completed, createdAt := 0,
         completedAt := some 0, dueDate := none, notes := none, urls := [],
         subtasks := [] },
       { id := 2, title := "b", status := .current, createdAt := 0,
         completedAt := none, dueDate := none, notes := none, urls := [],
         subtasks := [{ id := 3, title := "s", completed := false }] }]
        : List Task).map Task.id).Nodup
  ∧ (completedTasksList
      [{ id := 1, title := "a", status := .completed, createdAt := 0,
         completedAt := some 0, dueDate := none, notes := none, urls := [],
         subtasks := [] },
       { id := 2, title := "b", status := .current, createdAt := 0,
         completedAt := none, dueDate := none, notes := none, urls := [],
         subtasks := [{ id := 3, title := "s", completed := false }] }]
      ++ incompleteTasksList
      [{ id := 1, title := "a", status := .completed, createdAt := 0,
         completedAt := some 0, dueDate := none, notes := none, urls := [],
         subtasks := [] },
       { id := 2, title := "b", status := .current, createdAt := 0,
         completedAt := none, dueDate := none, notes := none, urls := [],
         subtasks := [{ id := 3, title := "s", completed := false }] }]).Perm
      [{ id := 1, title := "a", status := .completed, createdAt := 0,
         completedAt := some 0, dueDate := none, notes := none, urls := [],
         subtasks := [] },
       { id := 2, title := "b", status := .current, createdAt := 0,
         completedAt := none, dueDate := none, notes := none, urls := [],
         subtasks := [{ id := 3, title := "s", completed := false }] }] :=
  ⟨by decide, (c1_report_partition _ (by decide)).2.2⟩

instance : IsTotal Task completedOrder :=
  ⟨fun a b => Nat.le_total (b.completedAt.getD 0) (a.completedAt.getD 0)⟩

instance : IsTrans Task completedOrder :=
  ⟨fun _ _ _ hab hbc => Nat.le_trans hbc hab⟩

instance : IsTotal Task dueOrder := by
  constructor
  intro a b
  unfold dueOrder
  rcases a.dueDate with _ | x <;> rcases b.dueDate with _ | y
  · exact Nat.le_total _ _
  · exact Or.inr trivial
  · exact Or.inl trivial
  · exact Nat.le_total _ _

instance : IsTrans Task dueOrder := by
  constructor
  intro a b c
  unfold dueOrder
  rcases a.dueDate with _ | x <;> rcases b.dueDate with _ | y <;>
    rcases c.dueDate with _ | z <;> intro hab hbc <;> try trivial
  all_goals first
    | exact hab.elim
    | exact hbc.elim
    | omega

instance : IsTotal (Option Nat) keyOrder := by
  constructor
  intro a b
  unfold keyOrder
  rcases a with _ | x <;> rcases b with _ | y
  · exact Or.inl trivial
  · exact Or.inr trivial
  · exact Or.inl trivial
  · exact Nat.le_total _ _

instance : IsTrans (Option Nat) keyOrder := by
  constructor
  intro a b c
  unfold keyOrder
  rcases a with _ | x <;> rcases b with _ | y <;>
    rcases c with _ | z <;> intro hab hbc <;> try trivial
  all_goals first
    | exact hab.elim
    | exact hbc.elim
    | omega

/-- Folding `acc + g t` over a list starting at `n` adds the sum of the
images. -/
theorem foldl_acc_add (g : Task → Nat) :
    ∀ (l : List Task) (n : Nat),
      l.foldl (fun acc t => acc + g t) n = n + (l.map g).sum := by
  intro l
  induction l with
  | nil => intro n; simp
  | cons t ts ih => intro n; simp [ih, Nat.add_assoc]

/-- The completion-unit denominator is the sum of `max 1 subtask-count`
over the group. -/
theorem itemsForCompletion_eq_sum (tasks : List Task) :
    itemsForCompletion tasks =
      (tasks.map fun t => max 1 t.subtasks.length).sum := by
  have h1 : (fun (acc : Nat) (task : Task) =>
      if task.subtasks.length > 0 then acc + task.subtasks.length
      else acc + 1) = fun acc task => acc + max 1 task.subtasks.length := by
    funext acc task
    split <;> omega
  rw [itemsForCompletion, h1, foldl_acc_add]
  simp

/-- The completion-unit numerator is the sum of the per-task completed
counts (or the status bit when there are no subtasks). -/
theorem completedItems_eq_sum (tasks : List Task) :
    completedItemsForCompletion tasks =
      (tasks.map fun t =>
        if t.subtasks = [] then (if t.status = .completed then 1 else 0)
        else (t.subtasks.filter fun st => st.completed).length).sum := by
  have h1 : (fun (acc : Nat) (task : Task) =>
      if task.subtasks.length > 0 then
        acc + (task.subtasks.filter fun st => st.completed).length
      else if task.status == .completed then acc + 1 else acc) =
      fun acc task => acc +
        (if task.subtasks = [] then
          (if task.status = .completed then 1 else 0)
         else (task.subtasks.filter fun st => st.completed).length) := by
    funext acc task
    by_cases h : task.subtasks = []
    · by_cases hs : task.status = .completed <;> simp [h, hs]
    · have hlen : task.subtasks.length > 0 := List.length_pos.mpr h
      simp [h, hlen]
  rw [completedItemsForCompletion, h1, foldl_acc_add]
  simp

/-- C2: the completion rate is 100 times the completion-unit numerator
over the denominator, where each task contributes `max 1 subtask-count`
to the denominator and its completed-subtask count (or the status bit
when it has no subtasks) to the numerator; it is 0 when the denominator
is 0 (in particular for an empty group) and 100 when the group is
non-empty and every completion unit is complete. -/
theorem c2_completion_rate (tasks : List Task) :
    itemsForCompletion tasks =
      (tasks.map fun t => max 1 t.subtasks.length).sum
  ∧ completedItemsForCompletion tasks =
      (tasks.map fun t =>
        if t.subtasks = [] then (if t.status = .completed then 1 else 0)
        else (t.subtasks.filter fun st => st.completed).length).sum
  ∧ completionRate tasks =
      (if itemsForCompletion tasks = 0 then 0
       else 100 * (completedItemsForCompletion tasks : ℚ) /
         (itemsForCompletion tasks : ℚ))
  ∧ (tasks = [] → completionRate tasks = 0)
  ∧ (itemsForCompletion tasks = 0 → completionRate tasks = 0)
  ∧ (tasks ≠ [] →
      (∀ t ∈ tasks, (t.subtasks = [] → t.status = .completed) ∧
        ∀ st ∈ t.subtasks, st.completed = true) →
      completionRate tasks = 100) := by
  have hrate : completionRate tasks =
      (if itemsForCompletion tasks = 0 then 0
       else 100 * (completedItemsForCompletion tasks : ℚ) /
         (itemsForCompletion tasks : ℚ)) := by
    by_cases h : itemsForCompletion tasks = 0
    · simp [completionRate, h]
    · have hpos : itemsForCompletion tasks > 0 := Nat.pos_of_ne_zero h
      rw [completionRate, if_pos hpos, if_neg h]
      ring
  refine ⟨itemsForCompletion_eq_sum tasks, completedItems_eq_sum tasks,
    hrate, ?_, ?_, ?_⟩
  · rintro rfl
    simp [completionRate, itemsForCompletion]
  · intro h
    rw [hrate, if_pos h]
  · intro hne hall
    have hnum : completedItemsForCompletion tasks = itemsForCompletion tasks := by
      rw [completedItems_eq_sum, itemsForCompletion_eq_sum]
      refine congrArg List.sum (List.map_congr_left ?_)
      intro t ht
      rcases hall t ht with ⟨hempty, hsts⟩
      by_cases h : t.subtasks = []
      · simp [h, hempty h]
      · have hfull : t.subtasks.filter (fun st => st.completed) = t.subtasks :=
          List.filter_eq_self.mpr (fun st hst => by simp [hsts st hst])
        have hlen : t.subtasks.length > 0 := List.length_pos.mpr h
        simp [h, hfull]
        omega
    have hden : itemsForCompletion tasks ≠ 0 := by
      rw [itemsForCompletion_eq_sum]
      rcases tasks with _ | ⟨t, ts⟩
      · exact absurd rfl hne
      · simp
    rw [hrate, if_neg hden, hnum]
    have : (itemsForCompletion tasks : ℚ) ≠ 0 := Nat.cast_ne_zero.mpr hden
    field_simp

/-- Witness for C2: a non-empty, fully complete group has rate 100. -/
theorem c2_witness :
    (([{ id := 1, title := "a", status := .completed, createdAt := 0,
         completedAt := some 0, dueDate := none, notes := none, urls := [],
         subtasks := [{ id := 2, title := "s", completed := true }] }]
       : List Task) ≠ [])
  ∧ completionRate
      [{ id := 1, title := "a", status := .completed, createdAt := 0,
         completedAt := some 0, dueDate := none, notes := none, urls := [],
         subtasks := [{ id := 2, title := "s", completed := true }] }] = 100 :=
  ⟨by decide,
    (c2_completion_rate _).2.2.2.2.2 (by decide)
      (by
        intro t ht
        simp at ht
        subst ht
        refine ⟨fun h => by simp at h, ?_⟩
        intro st hst
        simp at hst
        subst hst
        rfl)⟩

/-- C3: for every task collection, tab membership is: `current` contains
tasks with status `current` or with status `completed` and `completedAt`
on the current calendar day; `completed` contains tasks with status
`completed` whose `completedAt` does not fall on the current day;
`pending` contains tasks with status `pending`; and each tab's display
count applies the same predicate to the full collection, independent of
the active tab. -/
theorem c3_tab_membership (now : Nat) (tasks : List Task) :
    (∀ t, t ∈ filteredTasks now .current tasks ↔
      t ∈ tasks ∧ (t.status = .current ∨
        (t.status = .completed ∧
          ∃ c, t.completedAt = some c ∧ dayOf c = dayOf now)))
  ∧ (∀ t, t ∈ filteredTasks now .completed tasks ↔
      t ∈ tasks ∧ t.status = .completed ∧
        ∃ c, t.completedAt = some c ∧ dayOf c ≠ dayOf now)
  ∧ (∀ t, t ∈ filteredTasks now .pending tasks ↔
      t ∈ tasks ∧ t.status = .pending)
  ∧ (∀ tab, getCount now tab tasks = (filteredTasks now tab tasks).length) := by
  refine ⟨?_, ?_, ?_, ?_⟩
  · intro t
    rcases h : t.completedAt with _ | c <;>
      simp [filteredTasks, List.mem_filter, isToday, h]
  · intro t
    rcases h : t.completedAt with _ | c <;>
      simp [filteredTasks, List.mem_filter, isToday, h]
  · intro t
    simp [filteredTasks, List.mem_filter]
  · intro tab
    cases tab <;> rfl

/-- C10: a task with status `completed` but no `completedAt` satisfies no
tab-membership predicate: it is in no tab's filtered list and adding it
to the collection changes no tab's displayed count. -/
theorem c10_completed_without_timestamp_hidden (t : Task)
    (h1 : t.status = .completed) (h2 : t.completedAt = none) :
    (∀ now tab tasks, t ∉ filteredTasks now tab tasks)
  ∧ (∀ now tab tasks, getCount now tab (t :: tasks) = getCount now tab tasks) := by
  constructor
  · intro now tab tasks
    cases tab <;> simp [filteredTasks, List.mem_filter, h1, h2]
  · intro now tab tasks
    cases tab <;> simp [getCount, h1, h2]

/-- Witness for C10 at a concrete task. -/
theorem c10_witness :
    (({ id := 1, title := "a", status := .completed, createdAt := 0,
        completedAt := none, dueDate := none, notes := none, urls := [],
        subtasks := [] } : Task).status = .completed)
  ∧ (({ id := 1, title := "a", status := .completed, createdAt := 0,
        completedAt := none, dueDate := none, notes := none, urls := [],
        subtasks := [] } : Task) ∉
      filteredTasks 0 .current
        [{ id := 1, title := "a", status := .completed, createdAt := 0,
           completedAt := none, dueDate := none, notes := none, urls := [],
           subtasks := [] }]) :=
  ⟨rfl,
    (c10_completed_without_timestamp_hidden _ rfl rfl).1 0 .current _⟩

/-- `insertGrouped` keeps the key list unchanged when the key already
occurs and appends it otherwise. -/
theorem insert_map_fst (acc : List (Option Nat × List Task))
    (k : Option Nat) (t : Task) :
    (insertGrouped acc k t).map Prod.fst =
      if k ∈ acc.map Prod.fst then acc.map Prod.fst
      else acc.map Prod.fst ++ [k] := by
  induction acc with
  | nil => simp [insertGrouped]
  | cons p rest ih =>
    obtain ⟨k0, l0⟩ := p
    by_cases hk : k0 = k
    · subst hk
      simp [insertGrouped]
    · have hk2 : ¬k = k0 := fun hkk => hk hkk.symm
      by_cases hmem : k ∈ rest.map Prod.fst <;>
        simp [insertGrouped, hk, hk2, hmem, ih]

/-- Keys never disappear under `insertGrouped`. -/
theorem mem_insert_keys {acc : List (Option Nat × List Task)}
    {k0 : Option Nat} (k : Option Nat) (t : Task)
    (h : k0 ∈ acc.map Prod.fst) :
    k0 ∈ (insertGrouped acc k t).map Prod.fst := by
  rw [insert_map_fst]
  split
  · exact h
  · exact List.mem_append_left _ h

/-- The inserted key occurs after `insertGrouped`. -/
theorem self_mem_insert_keys (acc : List (Option Nat × List Task))
    (k : Option Nat) (t : Task) :
    k ∈ (insertGrouped acc k t).map Prod.fst := by
  rw [insert_map_fst]
  split
  · assumption
  · exact List.mem_append_right _ (by simp)

/-- `insertGrouped` preserves distinctness of the keys. -/
theorem insert_nodup {acc : List (Option Nat × List Task)}
    {k : Option Nat} {t : Task} (hnd : (acc.map Prod.fst).Nodup) :
    ((insertGrouped acc k t).map Prod.fst).Nodup := by
  rw [insert_map_fst]
  by_cases hmem : k ∈ acc.map Prod.fst
  · rw [if_pos hmem]
    exact hnd
  · rw [if_neg hmem]
    simp [List.nodup_append, hnd, hmem]

/-- An entry with a different key is untouched by `insertGrouped`. -/
theorem insert_mem_of_ne {acc : List (Option Nat × List Task)}
    {k k0 : Option Nat} {t : Task} {gl : List Task} (hne : k0 ≠ k) :
    ((k0, gl) ∈ insertGrouped acc k t) ↔ (k0, gl) ∈ acc := by
  induction acc with
  | nil => simp [insertGrouped, hne]
  | cons p rest ih =>
    obtain ⟨k1, l1⟩ := p
    by_cases hk : k1 = k
    · subst hk
      have : k0 ≠ k1 := hne
      simp [insertGrouped, this]
    · simp [insertGrouped, hk, ih]

/-- The entry at the inserted key after `insertGrouped`: the previous
entry extended by `t`, or the fresh singleton when the key is new. -/
theorem insert_mem_self {acc : List (Option Nat × List Task)}
    {k : Option Nat} {t : Task} {gl : List Task}
    (hnd : (acc.map Prod.fst).Nodup) :
    ((k, gl) ∈ insertGrouped acc k t) ↔
      ((∃ gl0, (k, gl0) ∈ acc ∧ gl = gl0 ++ [t])
        ∨ (k ∉ acc.map Prod.fst ∧ gl = [t])) := by
  induction acc with
  | nil => simp [insertGrouped]
  | cons p rest ih =>
    obtain ⟨k1, l1⟩ := p
    rw [List.map_cons, List.nodup_cons] at hnd
    obtain ⟨hhead, hrest⟩ := hnd
    by_cases hk : k1 = k
    · subst hk
      have hnot : ∀ gl2, (k1, gl2) ∉ rest := by
        intro gl2 hm
        exact hhead (List.mem_map.mpr ⟨(k1, gl2), hm, rfl⟩)
      constructor
      · intro hm
        simp [insertGrouped] at hm
        rcases hm with ⟨-, rfl⟩ | hm
        · exact Or.inl ⟨l1, by simp, rfl⟩
        · exact absurd hm (hnot gl)
      · rintro (⟨gl0, hgl0, rfl⟩ | ⟨hnotin, rfl⟩)
        · simp at hgl0
          rcases hgl0 with ⟨-, rfl⟩ | hgl0
          · simp [insertGrouped]
          · exact absurd hgl0 (hnot gl0)
        · exact absurd (by simp) hnotin
    · have hk2 : k ≠ k1 := fun hkk => hk hkk.symm
      have hmm : ((k, gl) ∈ insertGrouped ((k1, l1) :: rest) k t) ↔
          (k, gl) ∈ insertGrouped rest k t := by
        simp only [insertGrouped, if_neg hk, List.mem_cons]
        constructor
        · rintro (hpair | hm)
          · exact absurd (congrArg Prod.fst hpair) hk2
          · exact hm
        · exact fun hm => Or.inr hm
      rw [hmm, ih hrest]
      constructor
      · rintro (⟨gl0, hgl0, rfl⟩ | ⟨hnotin, rfl⟩)
        · exact Or.inl ⟨gl0, List.mem_cons_of_mem _ hgl0, rfl⟩
        · refine Or.inr ⟨?_, rfl⟩
          rw [List.map_cons, List.mem_cons]
          rintro (hkk | hmem)
          · exact hk2 hkk
          · exact hnotin hmem
      · rintro (⟨gl0, hgl0, rfl⟩ | ⟨hnotin, rfl⟩)
        · rcases List.mem_cons.mp hgl0 with hpair | hgl0
          · exact absurd (congrArg Prod.fst hpair) hk2
          · exact Or.inl ⟨gl0, hgl0, rfl⟩
        · refine Or.inr ⟨?_, rfl⟩
          intro hmem
          refine hnotin ?_
          rw [List.map_cons]
          exact List.mem_cons_of_mem _ hmem

/-- The characterization of the `groupedTasks` fold from an arbitrary
accumulator with distinct keys: keys stay distinct, every final entry is
its start value (if any) extended by exactly the tasks with that key in
list order, existing entries persist, and every task's key is
covered. -/
theorem grouped_aux (key : Task → Option Nat) :
    ∀ (l : List Task) (acc : List (Option Nat × List Task)),
      (acc.map Prod.fst).Nodup →
      (((l.foldl (fun a t => insertGrouped a (key t) t) acc).map
          Prod.fst).Nodup
      ∧ (∀ k gl,
          (k, gl) ∈ l.foldl (fun a t => insertGrouped a (key t) t) acc →
          (∃ gl0, (k, gl0) ∈ acc ∧
            gl = gl0 ++ l.filter (fun t => key t == k))
          ∨ (k ∉ acc.map Prod.fst ∧
            gl = l.filter (fun t => key t == k)))
      ∧ (∀ k gl0, (k, gl0) ∈ acc →
          (k, gl0 ++ l.filter (fun t => key t == k)) ∈
            l.foldl (fun a t => insertGrouped a (key t) t) acc)
      ∧ (∀ t ∈ l, ∃ gl, (key t, gl) ∈
            l.foldl (fun a t => insertGrouped a (key t) t) acc)) := by
  intro l
  induction l with
  | nil =>
    intro acc hnd
    refine ⟨hnd, ?_, ?_, ?_⟩
    · intro k gl hm
      exact Or.inl ⟨gl, hm, by simp⟩
    · intro k gl0 hm
      simpa using hm
    · simp
  | cons t ts ih =>
    intro acc hnd
    have hnd2 : ((insertGrouped acc (key t) t).map Prod.fst).Nodup :=
      insert_nodup hnd
    obtain ⟨Hnd, Hmem, Hpers, Hcov⟩ := ih (insertGrouped acc (key t) t) hnd2
    simp only [List.foldl_cons]
    refine ⟨Hnd, ?_, ?_, ?_⟩
    · intro k gl hm
      rcases Hmem k gl hm with ⟨gl0, hgl0, rfl⟩ | ⟨hnotin, rfl⟩
      · by_cases hk : key t = k
        · subst hk
          rcases (insert_mem_self hnd).mp hgl0 with
            ⟨gl1, hgl1, rfl⟩ | ⟨hnot, rfl⟩
          · refine Or.inl ⟨gl1, hgl1, ?_⟩
            simp [List.filter_cons]
          · refine Or.inr ⟨hnot, ?_⟩
            simp [List.filter_cons]
        · have hne : k ≠ key t := fun hkk => hk hkk.symm
          refine Or.inl ⟨gl0, (insert_mem_of_ne hne).mp hgl0, ?_⟩
          have : (key t == k) = false := by simpa using hk
          simp [List.filter_cons, this]
      · have hknotacc : k ∉ acc.map Prod.fst := fun hmem =>
          hnotin (mem_insert_keys (key t) t hmem)
        have hkne : key t ≠ k := by
          intro hkk
          exact hnotin (hkk ▸ self_mem_insert_keys acc (key t) t)
        have : (key t == k) = false := by simpa using hkne
        refine Or.inr ⟨hknotacc, ?_⟩
        simp [List.filter_cons, this]
    · intro k gl0 hm
      by_cases hk : key t = k
      · subst hk
        have hstep : (key t, gl0 ++ [t]) ∈ insertGrouped acc (key t) t :=
          (insert_mem_self hnd).mpr (Or.inl ⟨gl0, hm, rfl⟩)
        have := Hpers (key t) (gl0 ++ [t]) hstep
        simpa [List.filter_cons] using this
      · have hne : k ≠ key t := fun hkk => hk hkk.symm
        have hstep : (k, gl0) ∈ insertGrouped acc (key t) t :=
          (insert_mem_of_ne hne).mpr hm
        have := Hpers k gl0 hstep
        have hfc : (key t == k) = false := by simpa using hk
        simpa [List.filter_cons, hfc] using this
    · intro t2 ht2
      rcases List.mem_cons.mp ht2 with rfl | ht2
      · have : key t2 ∈ (insertGrouped acc (key t2) t2).map Prod.fst :=
          self_mem_insert_keys acc (key t2) t2
        rcases List.mem_map.mp this with ⟨⟨k1, gl1⟩, hp, hpk⟩
        cases hpk
        exact ⟨gl1 ++ ts.filter (fun u => key u == key t2),
          Hpers _ gl1 hp⟩
      · exact Hcov t2 ht2

/-- C4: grouping the filtered tasks by date key is a partition — keys
are distinct, each group is exactly the filtered tasks with that key in
original order, and every filtered task lies in the group of its key —
and the sorted key list is a permutation of the keys ordered with the
`'No Date'` sentinel last and the other groups by calendar day
descending (`keyOrder`). -/
theorem c4_grouping_partition (now : Nat) (activeTab : TaskStatus)
    (tasks : List Task) :
    (((groupedTasks activeTab (filteredTasks now activeTab tasks)).map
        Prod.fst).Nodup)
  ∧ (∀ k gl,
      (k, gl) ∈ groupedTasks activeTab (filteredTasks now activeTab tasks) →
      gl = (filteredTasks now activeTab tasks).filter
        (fun t => groupKey activeTab t == k))
  ∧ (∀ t ∈ filteredTasks now activeTab tasks,
      ∃ gl, (groupKey activeTab t, gl) ∈
          groupedTasks activeTab (filteredTasks now activeTab tasks)
        ∧ t ∈ gl)
  ∧ (sortedGroupKeys
      ((groupedTasks activeTab (filteredTasks now activeTab tasks)).map
        Prod.fst)).Perm
      ((groupedTasks activeTab (filteredTasks now activeTab tasks)).map
        Prod.fst)
  ∧ (sortedGroupKeys
      ((groupedTasks activeTab (filteredTasks now activeTab tasks)).map
        Prod.fst)).Pairwise keyOrder := by
  obtain ⟨Hnd, Hmem, -, Hcov⟩ :=
    grouped_aux (groupKey activeTab) (filteredTasks now activeTab tasks)
      [] (by simp)
  have hchar : ∀ k gl,
      (k, gl) ∈ groupedTasks activeTab (filteredTasks now activeTab tasks) →
      gl = (filteredTasks now activeTab tasks).filter
        (fun t => groupKey activeTab t == k) := by
    intro k gl hm
    rcases Hmem k gl hm with ⟨gl0, hgl0, -⟩ | ⟨-, rfl⟩
    · simp at hgl0
    · rfl
  refine ⟨Hnd, hchar, ?_, List.perm_insertionSort _ _,
    List.sorted_insertionSort _ _⟩
  intro t ht
  obtain ⟨gl, hgl⟩ := Hcov t ht
  refine ⟨gl, hgl, ?_⟩
  rw [hchar _ gl hgl]
  exact List.mem_filter.mpr ⟨ht, by simp⟩

/-- Witness for C4's inner implications at a concrete input. -/
theorem c4_witness :
    ({ id := 1, title := "a", status := .pending, createdAt := 0,
       completedAt := none, dueDate := some (2 * msPerDay), notes := none,
       urls := [], subtasks := [] } : Task) ∈
      filteredTasks 0 .pending
        [{ id := 1, title := "a", status := .pending, createdAt := 0,
           completedAt := none, dueDate := some (2 * msPerDay),
           notes := none, urls := [], subtasks := [] }]
  ∧ ∃ gl,
      (groupKey .pending
        { id := 1, title := "a", status := .pending, createdAt := 0,
          completedAt := none, dueDate := some (2 * msPerDay), notes := none,
          urls := [], subtasks := [] }, gl) ∈
        groupedTasks .pending
          (filteredTasks 0 .pending
            [{ id := 1, title := "a", status := .pending, createdAt := 0,
               completedAt := none, dueDate := some (2 * msPerDay),
               notes := none, urls := [], subtasks := [] }])
      ∧ ({ id := 1, title := "a", status := .pending, createdAt := 0,
           completedAt := none, dueDate := some (2 * msPerDay), notes := none,
           urls := [], subtasks := [] } : Task) ∈ gl :=
  ⟨by decide,
    (c4_grouping_partition 0 .pending
      [{ id := 1, title := "a", status := .pending, createdAt := 0,
         completedAt := none, dueDate := some (2 * msPerDay), notes := none,
         urls := [], subtasks := [] }]).2.2.1 _ (by decide)⟩

/-- C5: within every date group the rendered order is a permutation of
the group; in the `completed` tab it is sorted by `completedAt`
descending with a missing timestamp read as the earliest value `0`
(`completedOrder`), and in the other tabs dated tasks come first in due
date ascending order and undated tasks follow in `createdAt` descending
order (`dueOrder`). -/
theorem c5_within_group_order (activeTab : TaskStatus) (l : List Task) :
    (sortTasks activeTab l).Perm l
  ∧ (activeTab = .completed →
      (sortTasks activeTab l).Pairwise completedOrder)
  ∧ (activeTab ≠ .completed →
      (sortTasks activeTab l).Pairwise dueOrder) := by
  refine ⟨?_, ?_, ?_⟩
  · cases activeTab <;> exact List.perm_insertionSort _ _
  · rintro rfl
    exact List.sorted_insertionSort _ _
  · intro h
    cases activeTab
    · exact List.sorted_insertionSort _ _
    · exact absurd rfl h
    · exact List.sorted_insertionSort _ _

/-- Witness for C5 on a concrete two-task list in the completed tab. -/
theorem c5_witness :
    ((TaskStatus.completed : TaskStatus) = .completed)
  ∧ (sortTasks .completed
      [{ id := 1, title := "a", status := .completed, createdAt := 0,
         completedAt := some 5, dueDate := none, notes := none, urls := [],
         subtasks := [] },
       { id := 2, title := "b", status := .completed, createdAt := 0,
         completedAt := some 9, dueDate := none, notes := none, urls := [],
         subtasks := [] }]).Pairwise completedOrder :=
  ⟨rfl, (c5_within_group_order .completed _).2.1 rfl⟩

/-- C6: toggling the primary checkbox of a task with subtasks to `v`
produces an update that sets every subtask's completed flag to `v`, and
sets status `completed` with `completedAt` filled when `v` is true,
status `current` with `completedAt` cleared when `v` is false; toggling
the updated task to the same `v` again leaves the subtask state
unchanged. -/
theorem c6_parent_toggle_cascade (now now2 : Nat) (task : Task) (v : Bool)
    (h : task.subtasks ≠ []) :
    (handleCheck now task v).subtasks =
      some (task.subtasks.map fun st => { st with completed := v })
  ∧ (∀ sts, (handleCheck now task v).subtasks = some sts →
      ∀ st ∈ sts, st.completed = v)
  ∧ (v = true → (handleCheck now task v).status = some .completed ∧
      (handleCheck now task v).completedAt = some (some now))
  ∧ (v = false → (handleCheck now task v).status = some .current ∧
      (handleCheck now task v).completedAt = some none)
  ∧ (handleCheck now2 (applyUpdate task (handleCheck now task v)) v).subtasks
      = (handleCheck now task v).subtasks := by
  have hlen : task.subtasks.length > 0 := List.length_pos.mpr h
  refine ⟨?_, ?_, ?_, ?_, ?_⟩
  · simp [handleCheck, hlen]
  · intro sts hsts st hst
    simp [handleCheck, hlen] at hsts
    subst hsts
    simp at hst
    rcases hst with ⟨st0, _, rfl⟩
    rfl
  · rintro rfl
    simp [handleCheck]
  · rintro rfl
    simp [handleCheck]
  · simp [handleCheck, applyUpdate, hlen, List.map_map, Function.comp]

/-- Witness for C6 on a concrete one-subtask task. -/
theorem c6_witness :
    (({ id := 1, title := "a", status := .current, createdAt := 0,
        completedAt := none, dueDate := none, notes := none, urls := [],
        subtasks := [{ id := 2, title := "s", completed := false }] }
       : Task).subtasks ≠ [])
  ∧ (handleCheck 7
      { id := 1, title := "a", status := .current, createdAt := 0,
        completedAt := none, dueDate := none, notes := none, urls := [],
        subtasks := [{ id := 2, title := "s", completed := false }] }
      true).subtasks =
      some [{ id := 2, title := "s", completed := true }] :=
  ⟨by decide, (c6_parent_toggle_cascade 7 7 _ true (by decide)).1⟩

/-- C7: toggling one subtask of a task with a non-empty subtask list
produces an update whose status is `completed` with `completedAt` set
exactly when every updated subtask is completed, and otherwise status
`current` with `completedAt` cleared, regardless of the prior status. -/
theorem c7_subtask_toggle_recompute (now : Nat) (task : Task) (sid : Nat)
    (v : Bool) (h : task.subtasks ≠ []) :
    (handleSubtaskCheck now task sid v).subtasks =
      some (task.subtasks.map fun st =>
        if st.id == sid then { st with completed := v } else st)
  ∧ (((handleSubtaskCheck now task sid v).status = some .completed ∧
      (handleSubtaskCheck now task sid v).completedAt = some (some now)) ↔
      ∀ st ∈ task.subtasks.map (fun st =>
        if st.id == sid then { st with completed := v } else st),
        st.completed = true)
  ∧ ((¬ ∀ st ∈ task.subtasks.map (fun st =>
        if st.id == sid then { st with completed := v } else st),
        st.completed = true) →
      (handleSubtaskCheck now task sid v).status = some .current ∧
      (handleSubtaskCheck now task sid v).completedAt = some none) := by
  have hlen : task.subtasks.length > 0 := List.length_pos.mpr h
  have hred : handleSubtaskCheck now task sid v =
      if ((task.subtasks.map fun st =>
            if st.id == sid then { st with completed := v } else st).all
          fun st => st.completed) = true then
        { subtasks := some (task.subtasks.map fun st =>
            if st.id == sid then { st with completed := v } else st),
          status := some .completed, completedAt := some (some now) }
      else
        { subtasks := some (task.subtasks.map fun st =>
            if st.id == sid then { st with completed := v } else st),
          status := some .current, completedAt := some none } := by
    simp only [handleSubtaskCheck, if_pos hlen]
  by_cases hall : ((task.subtasks.map fun st =>
      if st.id == sid then { st with completed := v } else st).all
        fun st => st.completed) = true
  · rw [hred, if_pos hall]
    refine ⟨rfl, ?_, ?_⟩
    · exact ⟨fun _ => List.all_eq_true.mp hall, fun _ => ⟨rfl, rfl⟩⟩
    · intro hnot
      exact absurd (List.all_eq_true.mp hall) hnot
  · rw [hred, if_neg hall]
    refine ⟨rfl, ?_, ?_⟩
    · constructor
      · rintro ⟨hc, -⟩
        exact absurd hc (by simp)
      · intro hx
        exact absurd (List.all_eq_true.mpr hx) hall
    · intro _
      exact ⟨rfl, rfl⟩

/-- Witness for C7 on a concrete two-subtask task. -/
theorem c7_witness :
    (({ id := 1, title := "a", status := .pending, createdAt := 0,
        completedAt := none, dueDate := none, notes := none, urls := [],
        subtasks := [{ id := 2, title := "s", completed := false },
                     { id := 3, title := "u", completed := true }] }
       : Task).subtasks ≠ [])
  ∧ (handleSubtaskCheck 7
      { id := 1, title := "a", status := .pending, createdAt := 0,
        completedAt := none, dueDate := none, notes := none, urls := [],
        subtasks := [{ id := 2, title := "s", completed := false },
                     { id := 3, title := "u", completed := true }] }
      2 true).subtasks =
      some [{ id := 2, title := "s", completed := true },
            { id := 3, title := "u", completed := true }] :=
  ⟨by decide, by
    have := (c7_subtask_toggle_recompute 7
      { id := 1, title := "a", status := .pending, createdAt := 0,
        completedAt := none, dueDate := none, notes := none, urls := [],
        subtasks := [{ id := 2, title := "s", completed := false },
                     { id := 3, title := "u", completed := true }] }
      2 true (by decide)).1
    rw [this]
    rfl⟩

/-- The HTML rendering of one task is the HTML surface syntax of its
abstract detail. -/
theorem detailToHtml_toDetail (t : Task) :
    detailToHtml (toDetail t) = renderTaskToHtml t := by
  unfold detailToHtml toDetail renderTaskToHtml
  rcases hn : t.notes with _ | s
  · simp [List.map_map, Function.comp_def]
  · by_cases hs : s = "" <;> simp [hs, List.map_map, Function.comp_def]

/-- The plain-text rendering of one task is the text surface syntax of
its abstract detail. -/
theorem detailToText_toDetail (t : Task) :
    detailToText (toDetail t) = renderTaskToText t := by
  unfold detailToText toDetail renderTaskToText
  rcases hn : t.notes with _ | s
  · simp [List.map_map, Function.comp_def]
  · by_cases hs : s = "" <;> simp [hs, List.map_map, Function.comp_def]

/-- C8: the HTML and plain-text report strings are both renderings of
the same abstract report — identical title text, statistics numbers,
section membership and ordering (accomplished tasks in group order, then
outstanding tasks in group order) and per-task detail — so they differ
only in surface syntax. -/
theorem c8_report_renderings_agree (reportTitle : String)
    (tasks : List Task) :
    generateHtmlReport reportTitle tasks =
      renderHtmlAbs (abstractReport reportTitle tasks)
  ∧ generatePlainTextReport reportTitle tasks =
      renderTextAbs (abstractReport reportTitle tasks)
  ∧ (abstractReport reportTitle tasks).accomplished =
      (completedTasksList tasks).map toDetail
  ∧ (abstractReport reportTitle tasks).outstanding =
      (incompleteTasksList tasks).map toDetail
  ∧ (abstractReport reportTitle tasks).title = reportTitle := by
  have h1 : ((completedTasksList tasks).map toDetail).map detailToHtml =
      (completedTasksList tasks).map renderTaskToHtml := by
    rw [List.map_map]
    exact List.map_congr_left fun t _ => detailToHtml_toDetail t
  have h2 : ((incompleteTasksList tasks).map toDetail).map detailToHtml =
      (incompleteTasksList tasks).map renderTaskToHtml := by
    rw [List.map_map]
    exact List.map_congr_left fun t _ => detailToHtml_toDetail t
  have h3 : ((completedTasksList tasks).map toDetail).map detailToText =
      (completedTasksList tasks).map renderTaskToText := by
    rw [List.map_map]
    exact List.map_congr_left fun t _ => detailToText_toDetail t
  have h4 : ((incompleteTasksList tasks).map toDetail).map detailToText =
      (incompleteTasksList tasks).map renderTaskToText := by
    rw [List.map_map]
    exact List.map_congr_left fun t _ => detailToText_toDetail t
  refine ⟨?_, ?_, rfl, rfl, rfl⟩
  · simp [generateHtmlReport, renderHtmlAbs, abstractReport, h1, h2]
  · simp [generatePlainTextReport, renderTextAbs, abstractReport, h3, h4]

/-- Dropping separators crosses a fully-separator prefix. -/
theorem dropWhile_append_sep {r s : List Char}
    (hall : ∀ c ∈ r, isSepChar c = true) :
    (r ++ s).dropWhile isSepChar = s.dropWhile isSepChar := by
  induction r with
  | nil => simp
  | cons c cs ih =>
    have hc := hall c (by simp)
    simp [List.dropWhile_cons, hc,
      ih fun c2 hc2 => hall c2 (by simp [hc2])]

/-- Dropping separators is the identity when the first character is not
a separator. -/
theorem dropWhile_sep_eq_self {s : List Char}
    (hhead : ∀ c ∈ s.take 1, isSepChar c = false) :
    s.dropWhile isSepChar = s := by
  cases s with
  | nil => rfl
  | cons c cs => simp [List.dropWhile_cons, hhead c (by simp)]

/-- C9: the saved PDF is `KEPH-Report-<X>.pdf` where `X` is the date key
when one is available (present and non-empty), and otherwise the
formatted date label with every maximal run of whitespace/comma
characters replaced by a single hyphen: `replaceRuns` keeps non-separator
characters and collapses each non-empty all-separator block followed by
a non-separator (or the end) into one `'-'`. -/
theorem c9_pdf_file_name (formattedDate : String) :
    (∀ k : String, k ≠ "" →
      pdfFileName (some k) formattedDate = "KEPH-Report-" ++ k ++ ".pdf")
  ∧ pdfFileName none formattedDate =
      "KEPH-Report-" ++ sanitizeLabel formattedDate ++ ".pdf"
  ∧ (∀ (c : Char) (s : List Char), isSepChar c = false →
      replaceRuns (c :: s) = c :: replaceRuns s)
  ∧ (∀ (r s : List Char), r ≠ [] → (∀ c ∈ r, isSepChar c = true) →
      (∀ c ∈ s.take 1, isSepChar c = false) →
      replaceRuns (r ++ s) = '-' :: replaceRuns s) := by
  refine ⟨?_, rfl, ?_, ?_⟩
  · intro k hk
    simp [pdfFileName, hk]
  · intro c s hc
    simp [replaceRuns, hc]
  · intro r s hr hall hhead
    rcases r with _ | ⟨c, cs⟩
    · exact absurd rfl hr
    · have hc := hall c (by simp)
      rw [List.cons_append]
      have hstep : replaceRuns (c :: (cs ++ s)) =
          '-' :: replaceRuns ((cs ++ s).dropWhile isSepChar) := by
        simp [replaceRuns, hc]
      rw [hstep,
        dropWhile_append_sep fun c2 hc2 => hall c2 (by simp [hc2]),
        dropWhile_sep_eq_self hhead]

/-- Witness for C9: a separator run collapses to one hyphen, and a
concrete available date key is used verbatim. -/
theorem c9_witness :
    ([' ', ','] ≠ ([] : List Char))
  ∧ replaceRuns ([' ', ','] ++ ['a']) = '-' :: replaceRuns ['a']
  ∧ pdfFileName (some "2024-06-01") "June 1, 2024" =
      "KEPH-Report-2024-06-01.pdf" := by
  refine ⟨by decide,
    (c9_pdf_file_name "x").2.2.2 [' ', ','] ['a'] (by decide) (by decide)
      (by decide), ?_⟩
  rw [(c9_pdf_file_name "June 1, 2024").1 "2024-06-01" (by decide)]
  rfl

end KEPH
